import Mathlib

/-!
Verification development for the cwt-cli session state manager.

This file gives a shallow embedding of the Go packages
`internal/types`, `internal/state`, `internal/events` and
`internal/operations` of the cwt-cli repository, and proves the
specified properties about session creation/deletion with rollback,
store persistence, session-name validation, state derivation, and the
event bus.

Modelling conventions:
* `time.Time` is modelled as `Int`, the number of nanoseconds since
  Go's zero time instant; `t.IsZero()` becomes `t = 0` and
  `a.After b` becomes `a > b`.  This is order-isomorphic to Go's wall
  clock readings.
* Go slices are Lean lists.  Go distinguishes `nil` from an empty
  slice, and `encoding/json` renders `nil` as `null` and an empty
  slice as `[]`; both decode back to the empty list, so the model
  collapses the two (no property here depends on the distinction).
* File-system state and the injected mock checkers are explicit
  parameters (`World`, `Cfg`); each state-manager operation is a pure
  function from these to a result bundle that also records the
  published events and the external-resource calls it made, in order.
-/

namespace Cwt

/-- Nanoseconds since Go's zero time instant (model of `time.Time`). -/
abbrev GoTime := Int

/-- Model of `types.GitStatus` (internal/types, `GitStatus struct`). -/
structure GitStatus where
  hasChanges : Bool
  modifiedFiles : List String
  addedFiles : List String
  deletedFiles : List String
  untrackedFiles : List String
  commitCount : Int
deriving DecidableEq, Repr, Inhabited

/-- Model of `types.ClaudeStatus`.  `ClaudeState` and `Availability`
are Go string types, so both fields are plain strings here; the Go
constants (`"working"`, `"waiting"`, ...) appear as string literals. -/
structure ClaudeStatus where
  state : String
  availability : String
  lastMessage : GoTime
  sessionID : String
  statusMessage : String
deriving DecidableEq, Repr, Inhabited

/-- Model of `types.CoreSession`, the persisted session record. -/
structure CoreSession where
  id : String
  name : String
  worktreePath : String
  tmuxSession : String
  createdAt : GoTime
deriving DecidableEq, Repr, Inhabited

/-- Model of `types.Session`, the derived (never persisted) view. -/
structure Session where
  core : CoreSession
  isAlive : Bool
  claudeStatus : ClaudeStatus
  gitStatus : GitStatus
  lastActivity : GoTime
deriving DecidableEq, Repr, Inhabited

/-- Model of `types.SessionState`, the per-session assistant-state
file written by the hook mechanism.  The `LastEventData` field (a
generic JSON map) is not read by any function modelled here and is
omitted. -/
structure SessionState where
  sessionID : String
  claudeState : String
  lastEvent : String
  lastEventTime : GoTime
  lastMessage : String
  lastUpdated : GoTime
deriving DecidableEq, Repr, Inhabited

/-- Model of the `types.Event` interface: the closed union of event
structs defined in internal/types. -/
inductive Event where
  | sessionCreationStarted (name : String)
  | sessionCreated (session : Session)
  | sessionCreationFailed (name : String) (error : String)
  | sessionDeleted (sessionID : String)
  | sessionDeletionFailed (sessionID : String) (error : String)
  | claudeStatusChanged (sessionID : String) (oldStatus newStatus : ClaudeStatus)
  | tmuxSessionDied (sessionID : String) (tmuxSession : String)
  | gitChangesDetected (sessionID : String) (newStatus : GitStatus)
  | refreshCompleted (sessions : List Session) (error : String)
deriving DecidableEq, Repr, Inhabited

/-- JSON documents, as far as the store codec needs them.  A Go
`time.Time` marshals (via its `MarshalJSON`) to an RFC3339Nano string;
that rendering is injective on instants and parses back to the same
instant, so such strings are represented by the instant they denote,
`Json.timeStr t`, rather than by their character data. -/
inductive Json where
  | null
  | bool (b : Bool)
  | num (n : Int)
  | str (s : String)
  | timeStr (t : GoTime)
  | arr (elems : List Json)
  | obj (fields : List (String × Json))
deriving Inhabited, Repr

/-- Model of `json.Marshal` applied to a `types.CoreSession` value:
one object field per struct tag, in declaration order. -/
def marshalCoreSession (c : CoreSession) : Json :=
  .obj [("id", .str c.id),
        ("name", .str c.name),
        ("worktree_path", .str c.worktreePath),
        ("tmux_session", .str c.tmuxSession),
        ("created_at", .timeStr c.createdAt)]

/-- Model of `json.Marshal` applied to `types.SessionData` (the
`{"sessions": [...]}` wrapper object written by `saveCoreSessions`). -/
def marshalSessionData (sessions : List CoreSession) : Json :=
  .obj [("sessions", .arr (sessions.map marshalCoreSession))]

/-- Field lookup in a decoded JSON object.  Go matches struct fields
by tag name (with a case-insensitive fallback, and later duplicate
keys overriding earlier ones); the documents written by this program
use each canonical lower-case key exactly once, for which first-match
exact lookup coincides with Go's behaviour. -/
def lookupField (fields : List (String × Json)) (key : String) : Option Json :=
  match fields with
  | [] => none
  | (k, v) :: rest => if k = key then some v else lookupField rest key

/-- Decoding a JSON value into a Go `string` field.  `null` leaves the
zero value in place without error (per `encoding/json`); any
non-string value is a type error.  A `timeStr` is in reality a string
(an RFC3339 rendering); since its character data is not represented in
this model it is reported as an error, which no document produced by
the program and no input considered here can hit. -/
def unmarshalString (j : Json) : Except String String :=
  match j with
  | .str s => .ok s
  | .null => .ok ""
  | .timeStr _ => .error "cannot unmarshal time string into Go value of type string"
  | _ => .error "cannot unmarshal value into Go value of type string"

/-- Decoding a JSON value into a Go `time.Time` field: `null` leaves
the zero time, an RFC3339 string parses to its instant, anything else
(including a non-RFC3339 plain string) is an error. -/
def unmarshalTime (j : Json) : Except String GoTime :=
  match j with
  | .timeStr t => .ok t
  | .null => .ok 0
  | _ => .error "cannot unmarshal value into Go value of type time.Time"

/-- Decoding one JSON value into a `types.CoreSession`: must be an
object (or `null`, leaving the zero value); absent fields keep their
zero values; unknown fields are ignored. -/
def unmarshalCoreSession (j : Json) : Except String CoreSession :=
  match j with
  | .null => .ok default
  | .obj fields => do
    let id ← unmarshalString ((lookupField fields "id").getD .null)
    let name ← unmarshalString ((lookupField fields "name").getD .null)
    let worktreePath ← unmarshalString ((lookupField fields "worktree_path").getD .null)
    let tmuxSession ← unmarshalString ((lookupField fields "tmux_session").getD .null)
    let createdAt ← unmarshalTime ((lookupField fields "created_at").getD .null)
    .ok { id, name, worktreePath, tmuxSession, createdAt }
  | _ => .error "cannot unmarshal value into Go value of type types.CoreSession"

/-- Decoding a JSON value into the `[]types.CoreSession` slice:
`null` decodes to the nil slice (empty list here), an array decodes
element-wise, anything else is a type error. -/
def unmarshalCoreSessionList (j : Json) : Except String (List CoreSession) :=
  match j with
  | .null => .ok []
  | .arr elems => goList elems
  | _ => .error "cannot unmarshal value into Go value of type []types.CoreSession"
where
  goList : List Json → Except String (List CoreSession)
    | [] => .ok []
    | e :: rest => do
      let c ← unmarshalCoreSession e
      let cs ← goList rest
      .ok (c :: cs)

/-- Decoding a JSON document into `types.SessionData`: the top level
must be an object (or `null`); a missing `"sessions"` key leaves the
nil slice. -/
def unmarshalSessionData (j : Json) : Except String (List CoreSession) :=
  match j with
  | .null => .ok []
  | .obj fields => unmarshalCoreSessionList ((lookupField fields "sessions").getD .null)
  | _ => .error "cannot unmarshal value into Go value of type types.SessionData"

/-- Raw content of the store file on disk: either text that parses as
a JSON document `j`, a zero-byte file, or text that is not valid JSON
at all.  Go's `json.Unmarshal` fails with a syntax error on the last
two: on empty input it reports "unexpected end of JSON input". -/
inductive StoreContent where
  | json (j : Json)
  | emptyFile
  | garbage
deriving Inhabited, Repr

/-- Model of `json.Unmarshal(data, &sessionData)` on the raw bytes of
the store file. -/
def unmarshalStoreContent (c : StoreContent) : Except String (List CoreSession) :=
  match c with
  | .json j => unmarshalSessionData j
  | .emptyFile => .error "unexpected end of JSON input"
  | .garbage => .error "invalid character"

/-! ### Session-name validation (internal/state/validation.go)

Go strings are byte sequences; the names handled here are modelled as
sequences of Unicode scalars (Lean `String`).  All byte-level pattern
operations below (`strings.Contains`, `HasPrefix`, `HasSuffix`) are
applied by the source only to ASCII patterns, for which byte-level and
rune-level matching agree (no UTF-8 continuation byte is ASCII), so
they are modelled at the rune level. -/

/-- Go `len(s)`: the UTF-8 byte length of the string. -/
def goLen (s : String) : Nat :=
  s.data.foldl (fun n c => n + c.utf8Size) 0

/-- Substring search on rune lists (model of `strings.Contains` for
ASCII needles). -/
def hasSubList (s pat : List Char) : Bool :=
  match s with
  | [] => pat.isEmpty
  | a :: t => pat.isPrefixOf (a :: t) || hasSubList t pat

/-- Model of `strings.Contains s sub` for ASCII `sub`. -/
def containsStr (s sub : String) : Bool :=
  hasSubList s.data sub.data

/-- Model of `strings.HasPrefix s p` for ASCII `p`. -/
def goHasPre (s p : String) : Bool :=
  p.data.isPrefixOf s.data

/-- Model of `strings.HasSuffix s p` for ASCII `p`. -/
def goHasSuf (s p : String) : Bool :=
  p.data.isSuffixOf s.data

/-- Decimal digit test. -/
def isDigitChar (c : Char) : Bool :=
  '0' ≤ c && c ≤ '9'

/-- Numeric value of a digit list, most significant first. -/
def digitsToNat (l : List Char) : Nat :=
  l.foldl (fun n c => n * 10 + (c.toNat - '0'.toNat)) 0

/-- Model of `strconv.Atoi` (= `ParseInt(s, 10, 0)`) on a 64-bit
platform: an optional single leading `+` or `-` sign, then one or more
decimal digits, with the resulting value required to fit in a signed
64-bit integer (`strconv.ErrRange` otherwise).  `none` models a
non-nil error. -/
def goAtoi (s : String) : Option Int :=
  let l := s.data
  let signAndDigits : Bool × List Char :=
    match l with
    | '+' :: rest => (false, rest)
    | '-' :: rest => (true, rest)
    | _ => (false, l)
  let neg := signAndDigits.1
  let ds := signAndDigits.2
  if ds.isEmpty || !ds.all isDigitChar then none
  else
    let v : Int := if neg then -(digitsToNat ds : Int) else (digitsToNat ds : Int)
    if v < -(2 ^ 63) || v > 2 ^ 63 - 1 then none else some v

/-- Model of `isNumericOnly` (validation.go): `strconv.Atoi`
succeeded. -/
def isNumericOnly (s : String) : Bool :=
  (goAtoi s).isSome

/-- Lower-case an ASCII letter, leave every other scalar unchanged. -/
def toLowerAscii (c : Char) : Char :=
  if 'A' ≤ c && c ≤ 'Z' then Char.ofNat (c.toNat + 32) else c

/-- One-rune case-fold comparison of an arbitrary rune `a` against a
rune `b` of an ASCII-only word, per Unicode simple case folding as
used by `strings.EqualFold`.  Besides the ASCII case pair, the only
simple-fold orbits containing an ASCII letter are
{`s`, `S`, `ſ` (U+017F)} and {`k`, `K`, `K` (U+212A)}. -/
def foldEqChar (a b : Char) : Bool :=
  toLowerAscii a == toLowerAscii b ||
  (toLowerAscii b == 's' && a == 'ſ') ||
  (toLowerAscii b == 'k' && a == 'K')

/-- Rune-wise fold comparison of two rune lists. -/
def foldEqList (s w : List Char) : Bool :=
  match s, w with
  | [], [] => true
  | a :: s', b :: w' => foldEqChar a b && foldEqList s' w'
  | _, _ => false

/-- Model of `strings.EqualFold name w` for an ASCII-only word `w`
(the reserved branch names are all ASCII). -/
def goEqualFold (s w : String) : Bool :=
  foldEqList s.data w.data

/-- Unicode `Cf` (format) code point ranges, Unicode 15.0 (the table
behind `unicode.In(r, unicode.Cf)` in current Go). -/
def cfRanges : List (Nat × Nat) :=
  [(0xAD, 0xAD), (0x600, 0x605), (0x61C, 0x61C), (0x6DD, 0x6DD),
   (0x70F, 0x70F), (0x890, 0x891), (0x8E2, 0x8E2), (0x180E, 0x180E),
   (0x200B, 0x200F), (0x202A, 0x202E), (0x2060, 0x2064),
   (0x2066, 0x206F), (0xFEFF, 0xFEFF), (0xFFF9, 0xFFFB),
   (0x110BD, 0x110BD), (0x110CD, 0x110CD), (0x13430, 0x1343F),
   (0x1BCA0, 0x1BCA3), (0x1D173, 0x1D17A), (0xE0001, 0xE0001),
   (0xE0020, 0xE007F)]

/-- Model of `unicode.In(r, unicode.Cf)`. -/
def isCf (c : Char) : Bool :=
  cfRanges.any (fun r => r.1 ≤ c.toNat && c.toNat ≤ r.2)

/-- Character class of the `[a-zA-Z0-9_-]` regular expression in
`isValidGitRefName`. -/
def isRefWordChar (c : Char) : Bool :=
  ('a' ≤ c && c ≤ 'z') || ('A' ≤ c && c ≤ 'Z') ||
  ('0' ≤ c && c ≤ '9') || c == '_' || c == '-'

/-- Model of `isValidGitRefName` (validation.go): no `.lock` ending,
no ASCII control character (code point below 32, or 127), no Unicode
format character, and at least one `[a-zA-Z0-9_-]` character. -/
def isValidGitRefName (name : String) : Bool :=
  if goHasSuf name ".lock" then false
  else if name.data.any (fun r => r.toNat < 32 || r.toNat == 127 || isCf r) then false
  else name.data.any isRefWordChar

/-- Forbidden substrings checked by `validateSessionName`, in source
order. -/
def invalidNameChars : List String :=
  [" ", "~", "^", ":", "?", "*", "[", "\\", "..", "@\x7b"]

/-- Characters a name may not start or end with, in source order. -/
def invalidStartEndChars : List String :=
  ["-", "/", "."]

/-- Reserved branch names, in source order. -/
def reservedNames : List String :=
  ["main", "master", "HEAD", "refs"]

/-- Model of `validateSessionName` (validation.go): the checks in
source order, returning the first failure. -/
def validateSessionName (name : String) : Except String Unit :=
  if name = "" then .error "session name cannot be empty"
  else if goLen name > 50 then .error "session name too long (max 50 characters)"
  else match invalidNameChars.find? (fun c => containsStr name c) with
  | some c => .error ("invalid characters in session name: '" ++ c ++ "' not allowed")
  | none =>
    match invalidStartEndChars.find? (fun c => goHasPre name c || goHasSuf name c) with
    | some c => .error ("session name cannot start or end with '" ++ c ++ "'")
    | none =>
      if isNumericOnly name then .error "session name cannot be just numbers"
      else match reservedNames.find? (fun r => goEqualFold name r) with
      | some _ => .error ("'" ++ name ++ "' is a reserved name and cannot be used")
      | none =>
        if !isValidGitRefName name then
          .error "session name must be a valid git branch name"
        else .ok ()

/-- The forbidden set exactly as the specification claim words it,
reading "over-length (50 chars)" as a bound on the number of
characters, "purely numeric" as consisting solely of decimal digits,
and "case-insensitively matching" as ASCII-case-insensitive
equality. -/
def forbiddenNameClaim (name : String) : Prop :=
  name = "" ∨
  50 < name.length ∨
  (∃ c ∈ name.data, c ∈ [' ', '~', '^', ':', '?', '*', '[', '\\']) ∨
  containsStr name ".." = true ∨
  containsStr name "@\x7b" = true ∨
  (∃ c ∈ invalidStartEndChars, goHasPre name c = true ∨ goHasSuf name c = true) ∨
  (name ≠ "" ∧ ∀ c ∈ name.data, isDigitChar c = true) ∨
  (∃ r ∈ reservedNames, name.data.map toLowerAscii = r.data.map toLowerAscii) ∨
  goHasSuf name ".lock" = true ∨
  (∃ c ∈ name.data, c.toNat < 32 ∨ c.toNat = 127 ∨ isCf c = true) ∨
  ¬ (∃ c ∈ name.data, isRefWordChar c = true)

/-- The forbidden set with the corrections the code forces:
over-length is measured in UTF-8 bytes (Go `len`), "purely numeric"
means accepted by `strconv.Atoi` (optionally `+`/`-`-signed decimal
within the signed 64-bit range), and reserved-name matching uses
Unicode simple case folding (`strings.EqualFold`). -/
def forbiddenNameAmended (name : String) : Prop :=
  name = "" ∨
  50 < goLen name ∨
  (∃ c ∈ name.data, c ∈ [' ', '~', '^', ':', '?', '*', '[', '\\']) ∨
  containsStr name ".." = true ∨
  containsStr name "@\x7b" = true ∨
  (∃ c ∈ invalidStartEndChars, goHasPre name c = true ∨ goHasSuf name c = true) ∨
  isNumericOnly name = true ∨
  (∃ r ∈ reservedNames, goEqualFold name r = true) ∨
  goHasSuf name ".lock" = true ∨
  (∃ c ∈ name.data, c.toNat < 32 ∨ c.toNat = 127 ∨ isCf c = true) ∨
  ¬ (∃ c ∈ name.data, isRefWordChar c = true)

/-! ### Event bus (internal/events, `Bus`)

A subscriber channel is a bounded FIFO buffer plus a closed flag.  The
bus holds the heap of every channel ever created (`chans`, indexed by
creation order) and the current subscriber list (`subs`, indices into
`chans`), mirroring `Bus.subscribers`; `Close` clears `subs` but the
channels survive for their receivers.  Sending is the
`select`/`default` offer of `Publish`: a send on a closed channel
panics (modelled as `Except.error`), a full buffer takes the `default`
branch and drops the event. -/

/-- Buffer capacity of a subscriber channel (`make(chan types.Event, 100)`). -/
def busBufferCap : Nat := 100

/-- A subscriber channel. -/
structure BusChan where
  closed : Bool
  buf : List Event
deriving DecidableEq, Repr, Inhabited

/-- The event bus state. -/
structure Bus where
  chans : List BusChan
  subs : List Nat
deriving DecidableEq, Repr, Inhabited

/-- Model of `events.NewBus`. -/
def newBus : Bus :=
  { chans := [], subs := [] }

/-- Model of `Bus.Subscribe`: a fresh buffered channel is appended to
the subscriber list; the returned index is the receiver's handle. -/
def subscribeBus (b : Bus) : Bus × Nat :=
  ({ chans := b.chans ++ [{ closed := false, buf := [] }],
     subs := b.subs ++ [b.chans.length] },
   b.chans.length)

/-- The non-blocking send of `Publish`: panic on a closed channel,
append if the buffer has room, silently drop otherwise. -/
def offerChan (c : BusChan) (e : Event) : Except String BusChan :=
  if c.closed then .error "send on closed channel"
  else if c.buf.length < busBufferCap then .ok { c with buf := c.buf ++ [e] }
  else .ok c

/-- The offer applied to an open channel (no panic case). -/
def offerOpen (c : BusChan) (e : Event) : BusChan :=
  if c.buf.length < busBufferCap then { c with buf := c.buf ++ [e] } else c

/-- The loop body of `Publish`: offer the event to each subscriber in
order. -/
def publishChans (chans : List BusChan) (subs : List Nat) (e : Event) :
    Except String (List BusChan) :=
  match subs with
  | [] => .ok chans
  | i :: rest =>
    match chans.get? i with
    | none => .error "invalid subscriber index"
    | some c => do
      let c' ← offerChan c e
      publishChans (chans.set i c') rest e

/-- Model of `Bus.Publish`. -/
def publishBus (b : Bus) (e : Event) : Except String Bus :=
  (publishChans b.chans b.subs e).map (fun cs => { b with chans := cs })

/-- Mark the channel at one index closed. -/
def closeIdx (chans : List BusChan) (i : Nat) : List BusChan :=
  match chans.get? i with
  | some c => chans.set i { c with closed := true }
  | none => chans

/-- Model of `Bus.Close`: close every subscribed channel, then reset
the subscriber list to empty (`b.subscribers = nil`). -/
def closeBus (b : Bus) : Bus :=
  { chans := b.subs.foldl closeIdx b.chans, subs := [] }

/-- Publish a whole list of events in order, stopping at a panic. -/
def publishAll (b : Bus) (evs : List Event) : Except String Bus :=
  match evs with
  | [] => .ok b
  | e :: rest => do
    let b' ← publishBus b e
    publishAll b' rest

/-- Well-formed bus: subscriber indices are distinct and each points
at an open channel.  Every bus reachable through `newBus`,
`subscribeBus`, `publishBus` alone satisfies this. -/
def BusWF (b : Bus) : Prop :=
  b.subs.Nodup ∧ ∀ i ∈ b.subs, ∃ c, b.chans.get? i = some c ∧ c.closed = false

/-! ### State manager (internal/state/manager.go)

The injected checkers and failure knobs of the mock external systems
are a `Cfg`; the state of the file system and of the external systems
is a `World`.  Each manager operation is a pure function producing an
`OpResult`: the Go return value, the final world, the events published
on the bus, and the external-resource calls made, in order. -/

/-- Assistant-state file contents for one session id: parseable or
not. -/
inductive SessionStateFile where
  | good (st : SessionState)
  | corrupt
deriving DecidableEq, Repr, Inhabited

/-- Injected configuration: the mock checkers' behaviour (cf.
`tmux.MockChecker`, `git.MockChecker`, `claude.MockChecker`) and the
file-system failure knobs for the store writes. -/
structure Cfg where
  dataDir : String
  tmuxAlive : String → Bool
  tmuxCreateFails : Bool
  gitValidRepo : Bool
  gitCreateWorktreeFails : Bool
  gitStatusOf : String → GitStatus
  claudeStatusOf : String → ClaudeStatus
  writeSettingsFails : Bool
  saveFails : Bool
  claudeExec : String

/-- External state: the store file, the live multiplexer sessions,
the existing worktrees, the worktrees holding a written
`.claude/settings.json`, and the per-session assistant-state files. -/
structure World where
  storeFile : Option StoreContent
  tmuxSessions : List String
  worktrees : List String
  settingsWritten : List String
  sessionStateFiles : List (String × SessionStateFile)
deriving Inhabited

/-- Trace entry for one external-resource call, with its outcome. -/
inductive ExtCall where
  | isValidRepository (ok : Bool)
  | createWorktree (branch path : String) (ok : Bool)
  | removeWorktree (path : String)
  | writeSettings (path : String) (ok : Bool)
  | createTmux (name workdir command : String) (ok : Bool)
  | killTmux (name : String)
  | removeSessionState (sessionID : String)
deriving DecidableEq, Repr, Inhabited

/-- Result bundle of one manager operation. -/
structure OpResult where
  ret : Except String Unit
  world : World
  events : List Event
  calls : List ExtCall

/-- Model of `loadCoreSessions`: a missing file is an empty list; any
content that fails to unmarshal is a hard error. -/
def loadCoreSessions (w : World) : Except String (List CoreSession) :=
  match w.storeFile with
  | none => .ok []
  | some content =>
    match unmarshalStoreContent content with
    | .ok ss => .ok ss
    | .error e => .error ("sessions file corrupted: " ++ e)

/-- Model of `saveCoreSessions`: an atomic temp-write-then-rename that
either fully replaces the store file or fails leaving it unchanged
(the caller keeps the old world on error). -/
def saveCoreSessions (cfg : Cfg) (w : World) (sessions : List CoreSession) :
    Except String World :=
  if cfg.saveFails then .error "failed to write temp file"
  else .ok { w with storeFile := some (.json (marshalSessionData sessions)) }

/-- Model of `addCoreSession`: load, append, save. -/
def addCoreSession (cfg : Cfg) (w : World) (core : CoreSession) :
    Except String World := do
  let sessions ← loadCoreSessions w
  saveCoreSessions cfg w (sessions ++ [core])

/-- Model of `checkDuplicateName`: reject a name already present in
the persisted store. -/
def checkDuplicateName (w : World) (name : String) : Except String Unit := do
  let sessions ← loadCoreSessions w
  if sessions.any (fun s => s.name = name) then
    .error ("session with name '" ++ name ++ "' already exists")
  else .ok ()

/-- Worktree path of a session: `filepath.Join(dataDir, "worktrees",
name)`, modelled as plain concatenation. -/
def worktreePathOf (cfg : Cfg) (name : String) : String :=
  cfg.dataDir ++ "/worktrees/" ++ name

/-- Removing a worktree directory also removes the settings file that
was written inside it. -/
def removeWorktreeW (w : World) (path : String) : World :=
  { w with worktrees := w.worktrees.filter (fun p => p ≠ path),
           settingsWritten := w.settingsWritten.filter (fun p => p ≠ path) }

/-- Model of `createExternalResources`: validate the repository,
create the worktree, write the assistant settings, start the
multiplexer session; on a failure, remove the already-created worktree
(best-effort rollback) and return the error. -/
def createExternalResources (cfg : Cfg) (w : World) (core : CoreSession) :
    Except String Unit × World × List ExtCall :=
  if !cfg.gitValidRepo then
    (.error "git repository validation failed", w, [.isValidRepository false])
  else if cfg.gitCreateWorktreeFails then
    (.error "failed to create git worktree", w,
     [.isValidRepository true, .createWorktree core.name core.worktreePath false])
  else
    let w1 := { w with worktrees := w.worktrees ++ [core.worktreePath] }
    if cfg.writeSettingsFails then
      (.error "failed to create Claude settings", removeWorktreeW w1 core.worktreePath,
       [.isValidRepository true, .createWorktree core.name core.worktreePath true,
        .writeSettings core.worktreePath false, .removeWorktree core.worktreePath])
    else
      let w2 := { w1 with settingsWritten := w1.settingsWritten ++ [core.worktreePath] }
      if cfg.tmuxCreateFails then
        (.error "failed to create tmux session", removeWorktreeW w2 core.worktreePath,
         [.isValidRepository true, .createWorktree core.name core.worktreePath true,
          .writeSettings core.worktreePath true,
          .createTmux core.tmuxSession core.worktreePath cfg.claudeExec false,
          .removeWorktree core.worktreePath])
      else
        (.ok (), { w2 with tmuxSessions := w2.tmuxSessions ++ [core.tmuxSession] },
         [.isValidRepository true, .createWorktree core.name core.worktreePath true,
          .writeSettings core.worktreePath true,
          .createTmux core.tmuxSession core.worktreePath cfg.claudeExec true])

/-- Model of `cleanupExternalResources`: kill the multiplexer session,
remove the worktree, remove the assistant-state file; each best-effort
with errors ignored. -/
def cleanupExternalResources (w : World) (core : CoreSession) :
    World × List ExtCall :=
  let w1 := { w with tmuxSessions := w.tmuxSessions.filter (fun n => n ≠ core.tmuxSession) }
  let w2 := removeWorktreeW w1 core.worktreePath
  let w3 := { w2 with sessionStateFiles :=
                w2.sessionStateFiles.filter (fun p => p.1 ≠ core.id) }
  (w3, [.killTmux core.tmuxSession, .removeWorktree core.worktreePath,
        .removeSessionState core.id])

/-- Model of `types.LoadSessionState`: a missing file is `ok none`, an
unparseable file is an error. -/
def loadSessionState (w : World) (sessionID : String) :
    Except String (Option SessionState) :=
  match w.sessionStateFiles.lookup sessionID with
  | none => .ok none
  | some (.good st) => .ok (some st)
  | some .corrupt => .error "failed to parse session state"

/-- Model of `types.GetClaudeStatusFromState` on a present (non-nil)
state, as called from `deriveSession`. -/
def getClaudeStatusFromState (st : SessionState) : ClaudeStatus :=
  let claudeState : String :=
    match st.claudeState with
    | "working" => "working"
    | "waiting_for_input" => "waiting"
    | "complete" => "complete"
    | "idle" => "idle"
    | _ => "unknown"
  { state := claudeState, availability := "", lastMessage := st.lastEventTime,
    sessionID := st.sessionID, statusMessage := st.lastMessage }

/-- Model of `calculateLastActivity`: start from the creation time and
advance to the assistant's last-message time when that is non-zero and
later.  Only the core's creation time and the assistant status are
consulted. -/
def calculateLastActivity (session : Session) : GoTime :=
  let lastActivity := session.core.createdAt
  if session.claudeStatus.lastMessage ≠ 0 ∧
      lastActivity < session.claudeStatus.lastMessage then
    session.claudeStatus.lastMessage
  else lastActivity

/-- Model of `deriveSession`: combine the core record with multiplexer
liveness, version-control status, and assistant status (state file
preferred, checker fallback), then compute the last activity. -/
def deriveSession (cfg : Cfg) (w : World) (core : CoreSession) : Session :=
  let base : Session :=
    { core := core,
      isAlive := cfg.tmuxAlive core.tmuxSession,
      gitStatus := cfg.gitStatusOf core.worktreePath,
      claudeStatus :=
        match loadSessionState w core.id with
        | .ok (some st) => getClaudeStatusFromState st
        | _ => cfg.claudeStatusOf core.worktreePath,
      lastActivity := 0 }
  { base with lastActivity := calculateLastActivity base }

/-- Model of `DeriveFreshSessions`. -/
def deriveFreshSessions (cfg : Cfg) (w : World) : Except String (List Session) :=
  match loadCoreSessions w with
  | .error e => .error ("failed to load core sessions: " ++ e)
  | .ok cores => .ok (cores.map (deriveSession cfg w))

/-- Model of `generateSessionID`, with the `time.Now().UnixNano()`
reading passed in as `now`. -/
def generateSessionID (now : GoTime) : String :=
  "session-" ++ toString now

/-- The CoreSession record assembled by `CreateSession`. -/
def coreOf (cfg : Cfg) (name : String) (now : GoTime) : CoreSession :=
  { id := generateSessionID now, name := name,
    worktreePath := worktreePathOf cfg name,
    tmuxSession := "cwt-" ++ name, createdAt := now }

/-- Model of `CreateSession`.  The two `time.Now()` readings (session
id and creation timestamp) are modelled by the single instant `now`. -/
def createSession (cfg : Cfg) (w : World) (name : String) (now : GoTime) : OpResult :=
  match validateSessionName name with
  | .error e => { ret := .error ("invalid session name: " ++ e),
                  world := w, events := [], calls := [] }
  | .ok _ =>
    let started := [Event.sessionCreationStarted name]
    let core : CoreSession := coreOf cfg name now
    match checkDuplicateName w name with
    | .error e =>
      { ret := .error e, world := w,
        events := started ++ [.sessionCreationFailed name e], calls := [] }
    | .ok _ =>
      match createExternalResources cfg w core with
      | (.error e, w1, calls1) =>
        { ret := .error e, world := w1,
          events := started ++ [.sessionCreationFailed name e], calls := calls1 }
      | (.ok _, w1, calls1) =>
        match addCoreSession cfg w1 core with
        | .error e =>
          let (w2, calls2) := cleanupExternalResources w1 core
          { ret := .error ("failed to save session: " ++ e), world := w2,
            events := started ++ [.sessionCreationFailed name e],
            calls := calls1 ++ calls2 }
        | .ok w2 =>
          { ret := .ok (), world := w2,
            events := started ++ [.sessionCreated (deriveSession cfg w2 core)],
            calls := calls1 }

/-- Model of `DeleteSession`.  The range loop keeps a pointer to the
last matching record (Go ≥ 1.22 per-iteration loop variables) and
collects the non-matching records, in order. -/
def deleteSession (cfg : Cfg) (w : World) (sessionID : String) : OpResult :=
  match loadCoreSessions w with
  | .error e =>
    { ret := .error ("failed to load sessions: " ++ e), world := w,
      events := [], calls := [] }
  | .ok cores =>
    let newCores := cores.filter (fun c => c.id ≠ sessionID)
    match (cores.filter (fun c => c.id = sessionID)).getLast? with
    | none =>
      let msg := "session with ID " ++ sessionID ++ " not found"
      { ret := .error msg, world := w,
        events := [.sessionDeletionFailed sessionID msg], calls := [] }
    | some core =>
      let (w1, calls1) := cleanupExternalResources w core
      match saveCoreSessions cfg w1 newCores with
      | .error e =>
        let msg := "failed to save updated sessions: " ++ e
        { ret := .error msg, world := w1,
          events := [.sessionDeletionFailed sessionID msg], calls := calls1 }
      | .ok w2 =>
        { ret := .ok (), world := w2,
          events := [.sessionDeleted sessionID], calls := calls1 }

/-- Model of `operations.FindSessionByName`: derive fresh sessions and
return the first whose core name matches, with its id. -/
def findSessionByName (cfg : Cfg) (w : World) (name : String) :
    Except String (Session × String) :=
  match deriveFreshSessions cfg w with
  | .error e => .error ("failed to load sessions: " ++ e)
  | .ok sessions =>
    match sessions.find? (fun s => s.core.name = name) with
    | some s => .ok (s, s.core.id)
    | none => .error ("session '" ++ name ++ "' not found")

/-- All provisioning steps succeed under this configuration. -/
def provisioningOk (cfg : Cfg) : Bool :=
  cfg.gitValidRepo && !cfg.gitCreateWorktreeFails &&
  !cfg.writeSettingsFails && !cfg.tmuxCreateFails

/-- Run a sequence of `CreateSession` requests (name and clock
reading), threading the world. -/
def runCreates (cfg : Cfg) (reqs : List (String × GoTime)) (w : World) : World :=
  match reqs with
  | [] => w
  | (name, now) :: rest => runCreates cfg rest (createSession cfg w name now).world

/-- An all-success mock configuration (every checker succeeds, the
assistant executable is not found, statuses are zero values). -/
def mockCfg : Cfg :=
  { dataDir := ".cwt", tmuxAlive := fun _ => true, tmuxCreateFails := false,
    gitValidRepo := true, gitCreateWorktreeFails := false,
    gitStatusOf := fun _ => default, claudeStatusOf := fun _ => default,
    writeSettingsFails := false, saveFails := false, claudeExec := "" }

/-- A fresh world: no store file, no external resources. -/
def emptyWorld : World :=
  { storeFile := none, tmuxSessions := [], worktrees := [],
    settingsWritten := [], sessionStateFiles := [] }

end Cwt

namespace Cwt

/-! ### Helper lemmas -/

theorem unmarshal_marshal_core (c : CoreSession) :
    unmarshalCoreSession (marshalCoreSession c) = .ok c := rfl

theorem unmarshal_marshal_list (l : List CoreSession) :
    unmarshalCoreSessionList.goList (l.map marshalCoreSession) = .ok l := by
  induction l with
  | nil => rfl
  | cons c rest ih =>
    simp only [List.map_cons, unmarshalCoreSessionList.goList, unmarshal_marshal_core, ih]
    rfl

theorem unmarshal_marshal_sessionData (l : List CoreSession) :
    unmarshalSessionData (marshalSessionData l) = .ok l := by
  simp [marshalSessionData, unmarshalSessionData, lookupField,
    unmarshalCoreSessionList, unmarshal_marshal_list]

/-- After a successful save, loading yields exactly the saved list. -/
theorem load_after_save (cfg : Cfg) (w : World) (sessions : List CoreSession)
    (h : cfg.saveFails = false) :
    saveCoreSessions cfg w sessions =
      .ok { w with storeFile := some (.json (marshalSessionData sessions)) } ∧
    loadCoreSessions { w with storeFile := some (.json (marshalSessionData sessions)) } =
      .ok sessions := by
  constructor
  · simp [saveCoreSessions, h]
  · simp [loadCoreSessions, unmarshalStoreContent, unmarshal_marshal_sessionData]

/-- Loading depends only on the store file. -/
theorem load_congr {w w' : World} (h : w.storeFile = w'.storeFile) :
    loadCoreSessions w = loadCoreSessions w' := by
  simp [loadCoreSessions, h]

/-- Bind on a successful `Except` computation reduces. -/
@[simp] theorem except_bind_ok {ε α β : Type} (a : α) (f : α → Except ε β) :
    (Except.ok (ε := ε) a >>= f) = f a := rfl

/-- Map on a successful `Except` computation reduces. -/
@[simp] theorem except_map_ok {ε α β : Type} (f : α → β) (a : α) :
    Except.map f (Except.ok (ε := ε) a) = .ok (f a) := rfl

/-- Closed form of `calculateLastActivity`. -/
theorem calculateLastActivity_eq (s : Session) :
    calculateLastActivity s =
      if s.claudeStatus.lastMessage = 0 then s.core.createdAt
      else max s.core.createdAt s.claudeStatus.lastMessage := by
  unfold calculateLastActivity
  rcases eq_or_ne s.claudeStatus.lastMessage 0 with h | h
  · simp [h]
  · rcases lt_or_le s.core.createdAt s.claudeStatus.lastMessage with hlt | hle
    · rw [if_pos ⟨h, hlt⟩, if_neg h, max_eq_right hlt.le]
    · rw [if_neg (fun hc => absurd hc.2 (not_lt.2 hle)), if_neg h, max_eq_left hle]

/-- Filtering out an element absent from a list changes nothing. -/
theorem filter_ne_self (l : List String) (p : String) (h : p ∉ l) :
    l.filter (fun q => q ≠ p) = l :=
  List.filter_eq_self.mpr (fun a ha => by
    simp only [ne_eq, decide_not, Bool.not_eq_true', decide_eq_false_iff_not]
    rintro rfl
    exact h ha)

/-- Appending an element and then filtering it out restores the list,
when the element was absent. -/
theorem filter_ne_append_self (l : List String) (p : String) (h : p ∉ l) :
    (l ++ [p]).filter (fun q => q ≠ p) = l := by
  rw [List.filter_append, filter_ne_self l p h]
  simp

/-! ### Claim theorems -/

/-- C8: for every derived Session, `last_activity` equals the maximum
of the CoreSession's creation time and the assistant status's
last-message time, the creation time alone being used when no
last-message time is available (the zero time); and the
version-control status source is never consulted — changing the git
checker's answers never changes `last_activity`. -/
theorem c8_last_activity (cfg : Cfg) (w : World) (core : CoreSession) :
    ((deriveSession cfg w core).lastActivity =
      if (deriveSession cfg w core).claudeStatus.lastMessage = 0 then core.createdAt
      else max core.createdAt (deriveSession cfg w core).claudeStatus.lastMessage) ∧
    ∀ g, (deriveSession { cfg with gitStatusOf := g } w core).lastActivity =
      (deriveSession cfg w core).lastActivity := by
  constructor
  · show calculateLastActivity _ = _
    rw [calculateLastActivity_eq]
    rfl
  · intro g
    rfl

/-- C2 (amended): `DeriveFreshSessions` returns an empty session list
when the persisted store file is missing; any present file whose
content fails to unmarshal — which includes a zero-byte file — makes
it return an error, never an empty or partial list. -/
theorem c2_store_load_behavior (cfg : Cfg) (w : World) :
    (w.storeFile = none → deriveFreshSessions cfg w = .ok []) ∧
    (∀ content e, w.storeFile = some content →
      unmarshalStoreContent content = .error e →
      deriveFreshSessions cfg w =
        .error ("failed to load core sessions: " ++ ("sessions file corrupted: " ++ e))) := by
  constructor
  · intro h
    simp [deriveFreshSessions, loadCoreSessions, h]
  · intro content e h he
    simp [deriveFreshSessions, loadCoreSessions, h, he]

/-- C2 counterexample: with the store file present but empty (zero
bytes), `DeriveFreshSessions` returns an error — `json.Unmarshal`
fails on empty input — not the empty session list the claim states. -/
theorem c2_counterexample :
    deriveFreshSessions mockCfg { emptyWorld with storeFile := some .emptyFile } =
      .error "failed to load core sessions: sessions file corrupted: unexpected end of JSON input" :=
  rfl

/-- C2 witness: the amended theorem applied to a missing store file
and to an empty store file. -/
theorem c2_store_load_behavior_witness :
    emptyWorld.storeFile = none ∧
    unmarshalStoreContent .emptyFile = .error "unexpected end of JSON input" ∧
    deriveFreshSessions mockCfg emptyWorld = .ok [] ∧
    deriveFreshSessions mockCfg { emptyWorld with storeFile := some .emptyFile } =
      .error ("failed to load core sessions: " ++ ("sessions file corrupted: " ++
        "unexpected end of JSON input")) :=
  ⟨rfl, rfl, (c2_store_load_behavior mockCfg emptyWorld).1 rfl,
   (c2_store_load_behavior mockCfg { emptyWorld with storeFile := some .emptyFile }).2
     .emptyFile "unexpected end of JSON input" rfl rfl⟩

/-- C9: persisting a list of N CoreSessions and then reloading the
store yields exactly those N records in their original order, for
every N including 0. -/
theorem c9_save_load_roundtrip (cfg : Cfg) (w : World) (sessions : List CoreSession)
    (h : cfg.saveFails = false) :
    ∃ w', saveCoreSessions cfg w sessions = .ok w' ∧
      loadCoreSessions w' = .ok sessions :=
  ⟨_, (load_after_save cfg w sessions h).1, (load_after_save cfg w sessions h).2⟩

/-- C9 witness: the round trip at a concrete two-element list and at
the empty list. -/
theorem c9_save_load_roundtrip_witness :
    mockCfg.saveFails = false ∧
    (∃ w', saveCoreSessions mockCfg emptyWorld
        [{ id := "session-1", name := "a", worktreePath := "p1",
           tmuxSession := "t1", createdAt := 1 },
         { id := "session-2", name := "b", worktreePath := "p2",
           tmuxSession := "t2", createdAt := 2 }] = .ok w' ∧
      loadCoreSessions w' = .ok
        [{ id := "session-1", name := "a", worktreePath := "p1",
           tmuxSession := "t1", createdAt := 1 },
         { id := "session-2", name := "b", worktreePath := "p2",
           tmuxSession := "t2", createdAt := 2 }]) ∧
    (∃ w', saveCoreSessions mockCfg emptyWorld [] = .ok w' ∧
      loadCoreSessions w' = .ok []) :=
  ⟨rfl, c9_save_load_roundtrip mockCfg emptyWorld _ rfl,
   c9_save_load_roundtrip mockCfg emptyWorld [] rfl⟩

/-- C6: `DeleteSession` on an id with no matching persisted record
publishes a deletion-failed event, returns a not-found error, makes no
external-resource calls, and leaves the world — in particular the
persisted store — completely unchanged. -/
theorem c6_delete_not_found (cfg : Cfg) (w : World) (sessionID : String)
    (cores : List CoreSession) (hload : loadCoreSessions w = .ok cores)
    (hno : ∀ c ∈ cores, c.id ≠ sessionID) :
    deleteSession cfg w sessionID =
      { ret := .error ("session with ID " ++ sessionID ++ " not found"),
        world := w,
        events := [.sessionDeletionFailed sessionID
          ("session with ID " ++ sessionID ++ " not found")],
        calls := [] } := by
  have hfilter : cores.filter (fun c => c.id = sessionID) = [] := by
    rw [List.filter_eq_nil_iff]
    intro a ha
    simp [hno a ha]
  simp [deleteSession, hload, hfilter]

/-- C6 witness: deleting an unknown id from a store holding one other
record. -/
theorem c6_delete_not_found_witness :
    loadCoreSessions (createSession mockCfg emptyWorld "auth-fix" 42).world =
      .ok [{ id := "session-42", name := "auth-fix",
             worktreePath := ".cwt/worktrees/auth-fix",
             tmuxSession := "cwt-auth-fix", createdAt := 42 }] ∧
    (∀ c ∈ [({ id := "session-42", name := "auth-fix",
               worktreePath := ".cwt/worktrees/auth-fix",
               tmuxSession := "cwt-auth-fix", createdAt := 42 } : CoreSession)],
       c.id ≠ "session-7") ∧
    deleteSession mockCfg (createSession mockCfg emptyWorld "auth-fix" 42).world
        "session-7" =
      { ret := .error ("session with ID " ++ "session-7" ++ " not found"),
        world := (createSession mockCfg emptyWorld "auth-fix" 42).world,
        events := [.sessionDeletionFailed "session-7"
          ("session with ID " ++ "session-7" ++ " not found")],
        calls := [] } :=
  ⟨rfl, by decide,
   c6_delete_not_found mockCfg (createSession mockCfg emptyWorld "auth-fix" 42).world
     "session-7" _ rfl (by decide)⟩

/-- C5: a successful `DeleteSession` leaves the store holding exactly
the prior records other than the matching one, unchanged and in their
original relative order, and publishes exactly the deleted event;
afterwards any name carried only by the deleted record is not found by
`FindSessionByName`. -/
theorem c5_delete_success (cfg : Cfg) (w : World) (sessionID : String)
    (cores : List CoreSession) (hload : loadCoreSessions w = .ok cores)
    (hsave : cfg.saveFails = false)
    (hmem : ∃ c ∈ cores, c.id = sessionID) :
    (deleteSession cfg w sessionID).ret = .ok () ∧
    loadCoreSessions (deleteSession cfg w sessionID).world =
      .ok (cores.filter (fun c => c.id ≠ sessionID)) ∧
    (deleteSession cfg w sessionID).events = [.sessionDeleted sessionID] ∧
    ∀ nm, (∀ c ∈ cores, c.id = sessionID ∨ c.name ≠ nm) →
      findSessionByName cfg (deleteSession cfg w sessionID).world nm =
        .error ("session '" ++ nm ++ "' not found") := by
  obtain ⟨cm, hcm, hcmid⟩ := hmem
  have hne : cores.filter (fun c => c.id = sessionID) ≠ [] := by
    intro hnil
    rw [List.filter_eq_nil_iff] at hnil
    exact hnil cm hcm (by simp [hcmid])
  obtain ⟨core, hlast⟩ : ∃ c, (cores.filter (fun c => c.id = sessionID)).getLast? = some c := by
    cases h : (cores.filter (fun c => c.id = sessionID)).getLast? with
    | none => exact absurd (List.getLast?_eq_none_iff.mp h) hne
    | some c => exact ⟨c, rfl⟩
  have hw2 : (deleteSession cfg w sessionID).world =
      { (cleanupExternalResources w core).1 with
        storeFile := some (.json (marshalSessionData
          (cores.filter (fun c => c.id ≠ sessionID)))) } := by
    simp [deleteSession, hload, hlast, saveCoreSessions, hsave]
  refine ⟨?_, ?_, ?_, ?_⟩
  · simp [deleteSession, hload, hlast, saveCoreSessions, hsave]
  · rw [hw2]
    exact (load_after_save cfg (cleanupExternalResources w core).1 _ hsave).2
  · simp [deleteSession, hload, hlast, saveCoreSessions, hsave]
  · intro nm hnm
    have hloadw2 : loadCoreSessions (deleteSession cfg w sessionID).world =
        .ok (cores.filter (fun c => c.id ≠ sessionID)) := by
      rw [hw2]
      exact (load_after_save cfg (cleanupExternalResources w core).1 _ hsave).2
    have hfind : ((cores.filter (fun c => c.id ≠ sessionID)).map
        (deriveSession cfg (deleteSession cfg w sessionID).world)).find?
          (fun s => s.core.name = nm) = none := by
      rw [List.find?_eq_none]
      intro s hs
      obtain ⟨c, hc, rfl⟩ := List.mem_map.mp hs
      obtain ⟨hcmem, hcid⟩ := List.mem_filter.mp hc
      rcases hnm c hcmem with h | h
      · simp [h] at hcid
      · have : (deriveSession cfg (deleteSession cfg w sessionID).world c).core = c := rfl
        simp [this, h]
    have hderive : deriveFreshSessions cfg (deleteSession cfg w sessionID).world =
        .ok ((cores.filter (fun c => c.id ≠ sessionID)).map
          (deriveSession cfg (deleteSession cfg w sessionID).world)) := by
      simp only [deriveFreshSessions, hloadw2]
    simp only [findSessionByName, hderive, hfind]

/-- C5 witness: the concrete scenario — create session "auth-fix"
(store holds one record with a non-empty id), delete it by that id,
after which the store holds zero records and `FindSessionByName
"auth-fix"` fails with not-found. -/
theorem c5_delete_success_witness :
    loadCoreSessions (createSession mockCfg emptyWorld "auth-fix" 42).world =
      .ok [{ id := "session-42", name := "auth-fix",
             worktreePath := ".cwt/worktrees/auth-fix",
             tmuxSession := "cwt-auth-fix", createdAt := 42 }] ∧
    "session-42" ≠ "" ∧
    (deleteSession mockCfg (createSession mockCfg emptyWorld "auth-fix" 42).world
        "session-42").ret = .ok () ∧
    loadCoreSessions (deleteSession mockCfg
        (createSession mockCfg emptyWorld "auth-fix" 42).world "session-42").world =
      .ok [] ∧
    findSessionByName mockCfg (deleteSession mockCfg
        (createSession mockCfg emptyWorld "auth-fix" 42).world "session-42").world
        "auth-fix" =
      .error ("session '" ++ "auth-fix" ++ "' not found") := by
  have h := c5_delete_success mockCfg
    (createSession mockCfg emptyWorld "auth-fix" 42).world "session-42"
    [{ id := "session-42", name := "auth-fix",
       worktreePath := ".cwt/worktrees/auth-fix",
       tmuxSession := "cwt-auth-fix", createdAt := 42 }]
    rfl rfl ⟨_, List.mem_singleton.mpr rfl, rfl⟩
  exact ⟨rfl, by decide, h.1, h.2.1, h.2.2.2 "auth-fix" (by decide)⟩

/-- C1: when any external-resource provisioning step fails
(repository validation, worktree creation, settings write, or
multiplexer start), `CreateSession` returns an error, no record is
added to the persisted store (from an empty store, it still loads
zero records), no multiplexer session survives, a fresh worktree is
rolled back so the world is fully restored, and the call trace shows
the best-effort teardown of whatever was created, in reverse creation
order (removing the worktree also removes the settings written inside
it). -/
theorem c1_create_provisioning_rollback (cfg : Cfg) (w : World) (name : String)
    (now : GoTime)
    (hv : validateSessionName name = .ok ())
    (hd : checkDuplicateName w name = .ok ())
    (hfail : provisioningOk cfg = false) :
    (∃ e, (createSession cfg w name now).ret = .error e) ∧
    (createSession cfg w name now).world.storeFile = w.storeFile ∧
    (createSession cfg w name now).world.tmuxSessions = w.tmuxSessions ∧
    (w.storeFile = none → loadCoreSessions (createSession cfg w name now).world = .ok []) ∧
    (worktreePathOf cfg name ∉ w.worktrees → worktreePathOf cfg name ∉ w.settingsWritten →
      (createSession cfg w name now).world = w) ∧
    (cfg.gitValidRepo = false →
      (createSession cfg w name now).calls = [.isValidRepository false]) ∧
    (cfg.gitValidRepo = true → cfg.gitCreateWorktreeFails = true →
      (createSession cfg w name now).calls =
        [.isValidRepository true,
         .createWorktree name (worktreePathOf cfg name) false]) ∧
    (cfg.gitValidRepo = true → cfg.gitCreateWorktreeFails = false →
        cfg.writeSettingsFails = true →
      (createSession cfg w name now).calls =
        [.isValidRepository true,
         .createWorktree name (worktreePathOf cfg name) true,
         .writeSettings (worktreePathOf cfg name) false,
         .removeWorktree (worktreePathOf cfg name)]) ∧
    (cfg.gitValidRepo = true → cfg.gitCreateWorktreeFails = false →
        cfg.writeSettingsFails = false → cfg.tmuxCreateFails = true →
      (createSession cfg w name now).calls =
        [.isValidRepository true,
         .createWorktree name (worktreePathOf cfg name) true,
         .writeSettings (worktreePathOf cfg name) true,
         .createTmux ("cwt-" ++ name) (worktreePathOf cfg name) cfg.claudeExec false,
         .removeWorktree (worktreePathOf cfg name)]) := by
  unfold provisioningOk at hfail
  cases hgv : cfg.gitValidRepo with
  | false =>
    have hres : createSession cfg w name now =
        { ret := .error "git repository validation failed",
          world := w,
          events := [.sessionCreationStarted name,
            .sessionCreationFailed name "git repository validation failed"],
          calls := [.isValidRepository false] } := by
      simp [createSession, coreOf, hv, hd, createExternalResources, hgv]
    refine ⟨⟨_, by rw [hres]⟩, by rw [hres], by rw [hres],
      fun h1 => by rw [hres]; simp [loadCoreSessions, h1],
      fun h1 h2 => by rw [hres],
      fun h1 => by rw [hres],
      fun h1 h2 => ?_, fun h1 h2 h3 => ?_, fun h1 h2 h3 h4 => ?_⟩ <;>
      exact Bool.noConfusion h1
  | true =>
    cases hwf : cfg.gitCreateWorktreeFails with
    | true =>
      have hres : createSession cfg w name now =
          { ret := .error "failed to create git worktree",
            world := w,
            events := [.sessionCreationStarted name,
              .sessionCreationFailed name "failed to create git worktree"],
            calls := [.isValidRepository true,
              .createWorktree name (worktreePathOf cfg name) false] } := by
        simp [createSession, coreOf, hv, hd, createExternalResources, hgv, hwf]
      refine ⟨⟨_, by rw [hres]⟩, by rw [hres], by rw [hres],
        fun h1 => by rw [hres]; simp [loadCoreSessions, h1],
        fun h1 h2 => by rw [hres],
        fun h1 => ?_,
        fun h1 h2 => by rw [hres],
        fun h1 h2 h3 => ?_, fun h1 h2 h3 h4 => ?_⟩
      · exact Bool.noConfusion h1
      · exact Bool.noConfusion h2
      · exact Bool.noConfusion h2
    | false =>
      cases hsf : cfg.writeSettingsFails with
      | true =>
        have hres : createSession cfg w name now =
            { ret := .error "failed to create Claude settings",
              world := removeWorktreeW
                { w with worktrees := w.worktrees ++ [worktreePathOf cfg name] }
                (worktreePathOf cfg name),
              events := [.sessionCreationStarted name,
                .sessionCreationFailed name "failed to create Claude settings"],
              calls := [.isValidRepository true,
                .createWorktree name (worktreePathOf cfg name) true,
                .writeSettings (worktreePathOf cfg name) false,
                .removeWorktree (worktreePathOf cfg name)] } := by
          simp [createSession, coreOf, hv, hd, createExternalResources, hgv, hwf, hsf]
        refine ⟨⟨_, by rw [hres]⟩, by rw [hres]; rfl, by rw [hres]; rfl,
          fun h1 => by rw [hres]; simp [loadCoreSessions, removeWorktreeW, h1],
          fun h1 h2 => ?_,
          fun h1 => ?_,
          fun h1 h2 => ?_,
          fun h1 h2 h3 => by rw [hres],
          fun h1 h2 h3 h4 => ?_⟩
        · rw [hres]
          show removeWorktreeW _ _ = w
          unfold removeWorktreeW
          rw [filter_ne_append_self _ _ h1, filter_ne_self _ _ h2]
        · exact Bool.noConfusion h1
        · exact Bool.noConfusion h2
        · exact Bool.noConfusion h3
      | false =>
        cases htf : cfg.tmuxCreateFails with
        | false =>
          rw [hgv, hwf, hsf, htf] at hfail
          simp at hfail
        | true =>
          have hres : createSession cfg w name now =
              { ret := .error "failed to create tmux session",
                world := removeWorktreeW
                  { w with worktrees := w.worktrees ++ [worktreePathOf cfg name],
                           settingsWritten :=
                             w.settingsWritten ++ [worktreePathOf cfg name] }
                  (worktreePathOf cfg name),
                events := [.sessionCreationStarted name,
                  .sessionCreationFailed name "failed to create tmux session"],
                calls := [.isValidRepository true,
                  .createWorktree name (worktreePathOf cfg name) true,
                  .writeSettings (worktreePathOf cfg name) true,
                  .createTmux ("cwt-" ++ name) (worktreePathOf cfg name)
                    cfg.claudeExec false,
                  .removeWorktree (worktreePathOf cfg name)] } := by
            simp [createSession, coreOf, hv, hd, createExternalResources, hgv, hwf, hsf, htf]
          refine ⟨⟨_, by rw [hres]⟩, by rw [hres]; rfl, by rw [hres]; rfl,
            fun h1 => by rw [hres]; simp [loadCoreSessions, removeWorktreeW, h1],
            fun h1 h2 => ?_,
            fun h1 => ?_,
            fun h1 h2 => ?_,
            fun h1 h2 h3 => ?_,
            fun h1 h2 h3 h4 => by rw [hres]⟩
          · rw [hres]
            show removeWorktreeW _ _ = w
            unfold removeWorktreeW
            rw [filter_ne_append_self _ _ h1, filter_ne_append_self _ _ h2]
          · exact Bool.noConfusion h1
          · exact Bool.noConfusion h2
          · exact Bool.noConfusion h3

/-- C1 witness: worktree creation configured to fail; `CreateSession`
errors, the world is unchanged, and the store still holds zero
records. -/
theorem c1_create_provisioning_rollback_witness :
    validateSessionName "auth-fix" = .ok () ∧
    checkDuplicateName emptyWorld "auth-fix" = .ok () ∧
    provisioningOk { mockCfg with gitCreateWorktreeFails := true } = false ∧
    (∃ e, (createSession { mockCfg with gitCreateWorktreeFails := true }
      emptyWorld "auth-fix" 42).ret = .error e) ∧
    loadCoreSessions (createSession { mockCfg with gitCreateWorktreeFails := true }
      emptyWorld "auth-fix" 42).world = .ok [] ∧
    (createSession { mockCfg with gitCreateWorktreeFails := true }
      emptyWorld "auth-fix" 42).world = emptyWorld := by
  have h := c1_create_provisioning_rollback
    { mockCfg with gitCreateWorktreeFails := true } emptyWorld "auth-fix" 42 rfl rfl rfl
  exact ⟨rfl, rfl, rfl, h.1, h.2.2.2.1 rfl,
    h.2.2.2.2.1 (by decide) (by decide)⟩

/-- The store file is untouched by external-resource provisioning. -/
theorem createExternalResources_storeFile (cfg : Cfg) (w : World) (core : CoreSession) :
    (createExternalResources cfg w core).2.1.storeFile = w.storeFile := by
  unfold createExternalResources removeWorktreeW
  split_ifs <;> rfl

/-- The store file is untouched by external-resource cleanup. -/
theorem cleanup_storeFile (w : World) (core : CoreSession) :
    (cleanupExternalResources w core).1.storeFile = w.storeFile := rfl

/-- One `CreateSession` call preserves "the store loads to a list of
pairwise-distinct names". -/
theorem createSession_names_nodup (cfg : Cfg) (w : World) (name : String) (now : GoTime)
    (cores : List CoreSession) (hload : loadCoreSessions w = .ok cores)
    (hnd : (cores.map CoreSession.name).Nodup) :
    ∃ cores', loadCoreSessions (createSession cfg w name now).world = .ok cores' ∧
      (cores'.map CoreSession.name).Nodup := by
  cases hv : validateSessionName name with
  | error e => exact ⟨cores, by simp [createSession, hv, hload], hnd⟩
  | ok u =>
    cases u
    cases hdup : checkDuplicateName w name with
    | error e => exact ⟨cores, by simp [createSession, hv, hdup, hload], hnd⟩
    | ok u =>
      cases u
      have hany : ∀ x ∈ cores, ¬ x.name = name := by
        cases h : cores.any (fun s => s.name = name) with
        | false => simpa using h
        | true =>
          exfalso
          have hex : ∃ x ∈ cores, x.name = name := by simpa using h
          simp [checkDuplicateName, hload, hex] at hdup
      rcases hres : createExternalResources cfg w (coreOf cfg name now) with ⟨r, w1, calls1⟩
      have hw1 : w1.storeFile = w.storeFile := by
        have h := createExternalResources_storeFile cfg w (coreOf cfg name now)
        rw [hres] at h
        exact h
      have hw1load : loadCoreSessions w1 = .ok cores := (load_congr hw1).trans hload
      cases r with
      | error e =>
        exact ⟨cores, by simp [createSession, hv, hdup, hres, hw1load], hnd⟩
      | ok u =>
        cases u
        cases hsave : cfg.saveFails with
        | true =>
          have hadd : addCoreSession cfg w1 (coreOf cfg name now) =
              .error "failed to write temp file" := by
            unfold addCoreSession
            rw [hw1load]
            simp [saveCoreSessions, hsave]
          refine ⟨cores, ?_, hnd⟩
          have hw : (createSession cfg w name now).world =
              (cleanupExternalResources w1 (coreOf cfg name now)).1 := by
            simp [createSession, hv, hdup, hres, hadd]
          rw [hw]
          exact (load_congr (cleanup_storeFile w1 _)).trans hw1load
        | false =>
          have hadd : addCoreSession cfg w1 (coreOf cfg name now) =
              .ok { w1 with storeFile := some (StoreContent.json (marshalSessionData (cores ++ [coreOf cfg name now]))) } := by
            unfold addCoreSession
            rw [hw1load]
            simp [saveCoreSessions, hsave]
          refine ⟨cores ++ [coreOf cfg name now], ?_, ?_⟩
          · have hw : (createSession cfg w name now).world = { w1 with storeFile := some (StoreContent.json (marshalSessionData (cores ++ [coreOf cfg name now]))) } := by
              simp [createSession, hv, hdup, hres, hadd]
            rw [hw]
            exact (load_after_save cfg w1 _ hsave).2
          · rw [List.map_append, List.nodup_append]
            refine ⟨hnd, List.nodup_singleton _, ?_⟩
            intro a ha hb
            have hbn : a = name := by
              simpa [coreOf] using hb
            subst hbn
            rcases List.mem_map.mp ha with ⟨c, hc, hcn⟩
            exact hany c hc hcn

/-- C7: no sequence of `CreateSession` calls can make two persisted
CoreSessions share a name: a name already present in the persisted
store is rejected before any external-resource call and without
touching the world, and the pairwise-distinct-names invariant of the
store is preserved by every `CreateSession` sequence. -/
theorem c7_unique_names (cfg : Cfg) :
    (∀ w name now cores, loadCoreSessions w = .ok cores →
      (∃ c ∈ cores, c.name = name) →
      (∃ e, (createSession cfg w name now).ret = .error e) ∧
      (createSession cfg w name now).calls = [] ∧
      (createSession cfg w name now).world = w) ∧
    (∀ reqs w cores, loadCoreSessions w = .ok cores →
      (cores.map CoreSession.name).Nodup →
      ∃ cores', loadCoreSessions (runCreates cfg reqs w) = .ok cores' ∧
        (cores'.map CoreSession.name).Nodup) := by
  constructor
  · intro w name now cores hload hex
    obtain ⟨c, hc, hcname⟩ := hex
    cases hv : validateSessionName name with
    | error e =>
      exact ⟨⟨"invalid session name: " ++ e, by simp [createSession, hv]⟩,
        by simp [createSession, hv], by simp [createSession, hv]⟩
    | ok u =>
      cases u
      have hex : ∃ x ∈ cores, x.name = name := ⟨c, hc, hcname⟩
      have hdup : checkDuplicateName w name =
          .error ("session with name '" ++ name ++ "' already exists") := by
        simp [checkDuplicateName, hload, hex]
      exact ⟨⟨"session with name '" ++ name ++ "' already exists",
          by simp [createSession, hv, hdup]⟩,
        by simp [createSession, hv, hdup], by simp [createSession, hv, hdup]⟩
  · intro reqs
    induction reqs with
    | nil => exact fun w cores hload hnd => ⟨cores, hload, hnd⟩
    | cons req rest ih =>
      intro w cores hload hnd
      obtain ⟨cores', h1, h2⟩ := createSession_names_nodup cfg w req.1 req.2 cores hload hnd
      have hstep : runCreates cfg (req :: rest) w =
          runCreates cfg rest (createSession cfg w req.1 req.2).world := by
        cases req
        rfl
      rw [hstep]
      exact ih _ _ h1 h2

/-- C7 witness: creating "x" twice; the second call is rejected with
no calls and no world change, and a two-request sequence keeps the
store's names pairwise distinct. -/
theorem c7_unique_names_witness :
    loadCoreSessions (createSession mockCfg emptyWorld "x" 1).world =
      .ok [coreOf mockCfg "x" 1] ∧
    (∃ c ∈ [coreOf mockCfg "x" 1], c.name = "x") ∧
    (∃ e, (createSession mockCfg (createSession mockCfg emptyWorld "x" 1).world
      "x" 2).ret = .error e) ∧
    (createSession mockCfg (createSession mockCfg emptyWorld "x" 1).world "x" 2).calls
      = [] ∧
    (createSession mockCfg (createSession mockCfg emptyWorld "x" 1).world "x" 2).world
      = (createSession mockCfg emptyWorld "x" 1).world ∧
    (∃ cores', loadCoreSessions (runCreates mockCfg [("x", 1), ("x", 2)] emptyWorld) =
      .ok cores' ∧ (cores'.map CoreSession.name).Nodup) := by
  have ha := (c7_unique_names mockCfg).1 (createSession mockCfg emptyWorld "x" 1).world
    "x" 2 [coreOf mockCfg "x" 1] rfl ⟨_, List.mem_singleton.mpr rfl, rfl⟩
  have hb := (c7_unique_names mockCfg).2 [("x", 1), ("x", 2)] emptyWorld [] rfl
    List.nodup_nil
  exact ⟨rfl, ⟨_, List.mem_singleton.mpr rfl, rfl⟩, ha.1, ha.2.1, ha.2.2, hb⟩

/-- Index bound from a successful list lookup. -/
theorem get?_some_lt {α : Type} {l : List α} {i : Nat} {c : α}
    (h : l.get? i = some c) : i < l.length := by
  by_contra hle
  rw [List.get?_len_le (not_lt.mp hle)] at h
  exact Option.noConfusion h

/-- Publishing a stream of events to a single open subscriber fills
its buffer with the first events, up to capacity, and drops the
rest. -/
theorem publishAll_single (evs : List Event) :
    ∀ buf : List Event, buf.length ≤ busBufferCap →
    publishAll { chans := [{ closed := false, buf := buf }], subs := [0] } evs =
      .ok { chans := [{ closed := false, buf := buf ++ evs.take (busBufferCap - buf.length) }], subs := [0] } := by
  induction evs with
  | nil =>
    intro buf h
    simp [publishAll]
  | cons e rest ih =>
    intro buf h
    by_cases hlt : buf.length < busBufferCap
    · have hstep : publishBus { chans := [{ closed := false, buf := buf }], subs := [0] } e =
          .ok { chans := [{ closed := false, buf := buf ++ [e] }], subs := [0] } := by
        simp [publishBus, publishChans, offerChan, hlt]
      have hnext : publishAll { chans := [{ closed := false, buf := buf }], subs := [0] }
            (e :: rest) =
          publishAll { chans := [{ closed := false, buf := buf ++ [e] }], subs := [0] }
            rest := by
        simp [publishAll, hstep]
      have harith : busBufferCap - buf.length = (busBufferCap - (buf.length + 1)) + 1 := by
        omega
      rw [hnext, ih (buf ++ [e]) (by simpa using hlt), harith, List.take_succ_cons]
      simp
    · have hstep : publishBus { chans := [{ closed := false, buf := buf }], subs := [0] } e =
          .ok { chans := [{ closed := false, buf := buf }], subs := [0] } := by
        simp [publishBus, publishChans, offerChan, hlt]
      have hnext : publishAll { chans := [{ closed := false, buf := buf }], subs := [0] }
            (e :: rest) =
          publishAll { chans := [{ closed := false, buf := buf }], subs := [0] } rest := by
        simp [publishAll, hstep]
      have htake : busBufferCap - buf.length = 0 := by omega
      rw [hnext, ih buf h, htake]
      simp

/-- One publish offers the event to each subscriber independently:
each open subscribed channel is updated by the non-blocking offer, and
every other channel is untouched. -/
theorem publishChans_pointwise (e : Event) :
    ∀ subs : List Nat, subs.Nodup → ∀ chans : List BusChan,
    (∀ i ∈ subs, ∃ c, chans.get? i = some c ∧ c.closed = false) →
    ∃ chans', publishChans chans subs e = .ok chans' ∧
      chans'.length = chans.length ∧
      (∀ i ∈ subs, ∃ c, chans.get? i = some c ∧
        chans'.get? i = some (offerOpen c e)) ∧
      (∀ i, i ∉ subs → chans'.get? i = chans.get? i) := by
  intro subs
  induction subs with
  | nil =>
    intro _ chans _
    exact ⟨chans, rfl, rfl, by simp, fun i _ => rfl⟩
  | cons j rest ih =>
    intro hnd chans hwf
    obtain ⟨c, hcj, hcopen⟩ := hwf j (List.mem_cons_self j rest)
    have hjlt : j < chans.length := get?_some_lt hcj
    have hoffer : offerChan c e = .ok (offerOpen c e) := by
      unfold offerChan offerOpen
      rw [hcopen]
      by_cases hb : c.buf.length < busBufferCap
      · rw [if_neg Bool.false_ne_true, if_pos hb, if_pos hb]
      · rw [if_neg Bool.false_ne_true, if_neg hb, if_neg hb]
    have hjne : j ∉ rest := (List.nodup_cons.mp hnd).1
    have hndr : rest.Nodup := (List.nodup_cons.mp hnd).2
    have hwf1 : ∀ i ∈ rest, ∃ c', (chans.set j (offerOpen c e)).get? i = some c' ∧
        c'.closed = false := by
      intro i hi
      have hij : j ≠ i := fun hji => hjne (hji ▸ hi)
      rw [List.get?_set_ne _ _ hij]
      exact hwf i (List.mem_cons_of_mem _ hi)
    obtain ⟨chans', hpub, hlen, hpoint, hframe⟩ := ih hndr (chans.set j (offerOpen c e)) hwf1
    refine ⟨chans', ?_, ?_, ?_, ?_⟩
    · simp only [publishChans, hcj, hoffer, except_bind_ok]
      exact hpub
    · rw [hlen, List.length_set]
    · intro i hi
      rcases List.mem_cons.mp hi with rfl | hi'
      · refine ⟨c, hcj, ?_⟩
        rw [hframe i hjne, List.get?_set_eq_of_lt _ hjlt]
      · obtain ⟨c', hc'1, hc'2⟩ := hpoint i hi'
        have hij : j ≠ i := fun hji => hjne (hji ▸ hi')
        rw [List.get?_set_ne _ _ hij] at hc'1
        exact ⟨c', hc'1, hc'2⟩
    · intro i hi
      have hij : j ≠ i := fun hji => hi (hji ▸ List.mem_cons_self j rest)
      have hir : i ∉ rest := fun hr => hi (List.mem_cons_of_mem _ hr)
      rw [hframe i hir, List.get?_set_ne _ _ hij]

/-- C4: `Publish` offers events to every current subscriber
non-blockingly.  Publishing any stream to a fresh subscriber (capacity
100) always succeeds and the subscriber's buffer holds exactly the
first `min 100 N` events — publishing 101 events leaves at most 100
observed; and on any well-formed bus a publish succeeds, updating each
subscribed channel independently (a full one silently drops the event
for that subscriber only) and touching no other channel. -/
theorem c4_publish_nonblocking_drop :
    (∀ evs : List Event,
      publishAll (subscribeBus newBus).1 evs =
        .ok { chans := [{ closed := false, buf := evs.take busBufferCap }], subs := [0] }) ∧
    (∀ b e, BusWF b →
      ∃ b', publishBus b e = .ok b' ∧ b'.subs = b.subs ∧
        b'.chans.length = b.chans.length ∧
        (∀ i ∈ b.subs, ∃ c, b.chans.get? i = some c ∧
          b'.chans.get? i = some (offerOpen c e)) ∧
        (∀ i, i ∉ b.subs → b'.chans.get? i = b.chans.get? i)) := by
  constructor
  · intro evs
    have h := publishAll_single evs [] (by simp)
    simpa using h
  · intro b e hwf
    obtain ⟨chans', hpub, hlen, hpoint, hframe⟩ :=
      publishChans_pointwise e b.subs hwf.1 b.chans hwf.2
    refine ⟨{ b with chans := chans' }, ?_, rfl, hlen, hpoint, hframe⟩
    unfold publishBus
    rw [hpub]
    rfl

/-- C4 witness: 101 events published to a fresh subscriber; the
publish stream succeeds and the buffer observes exactly the first
100. -/
theorem c4_publish_nonblocking_drop_witness :
    publishAll (subscribeBus newBus).1
        (List.replicate 101 (Event.sessionDeleted "x")) =
      .ok { chans := [{ closed := false, buf := List.replicate 100 (Event.sessionDeleted "x") }], subs := [0] } ∧
    BusWF (subscribeBus newBus).1 ∧
    (∃ b', publishBus (subscribeBus newBus).1 (Event.sessionDeleted "x") = .ok b' ∧
      b'.subs = (subscribeBus newBus).1.subs ∧
      b'.chans.length = (subscribeBus newBus).1.chans.length ∧
      (∀ i ∈ (subscribeBus newBus).1.subs, ∃ c,
        (subscribeBus newBus).1.chans.get? i = some c ∧
        b'.chans.get? i = some (offerOpen c (Event.sessionDeleted "x"))) ∧
      (∀ i, i ∉ (subscribeBus newBus).1.subs →
        b'.chans.get? i = (subscribeBus newBus).1.chans.get? i)) := by
  have hwf : BusWF (subscribeBus newBus).1 := by
    constructor
    · simp [subscribeBus, newBus]
    · intro i hi
      simp [subscribeBus, newBus] at hi
      subst hi
      exact ⟨_, rfl, rfl⟩
  refine ⟨?_, hwf, c4_publish_nonblocking_drop.2 _ _ hwf⟩
  have h := c4_publish_nonblocking_drop.1 (List.replicate 101 (Event.sessionDeleted "x"))
  exact h

/-- Closing the channel at an index marks exactly that entry closed. -/
theorem closeIdx_self (chans : List BusChan) (i : Nat) (c : BusChan)
    (h : chans.get? i = some c) :
    (closeIdx chans i).get? i = some { c with closed := true } := by
  unfold closeIdx
  rw [h]
  exact List.get?_set_eq_of_lt _ (get?_some_lt h)

/-- Closing one index leaves every other index untouched. -/
theorem closeIdx_other (chans : List BusChan) (j i : Nat) (hne : j ≠ i) :
    (closeIdx chans j).get? i = chans.get? i := by
  unfold closeIdx
  cases h : chans.get? j with
  | none => rfl
  | some c => exact List.get?_set_ne _ _ hne

/-- Closing an index never reopens an already-closed entry. -/
theorem closeIdx_closed_pres (chans : List BusChan) (j i : Nat) (c : BusChan)
    (h : chans.get? i = some c) (hc : c.closed = true) :
    ∃ c', (closeIdx chans j).get? i = some c' ∧ c'.closed = true := by
  rcases eq_or_ne j i with rfl | hne
  · exact ⟨_, closeIdx_self chans j c h, rfl⟩
  · exact ⟨c, by rw [closeIdx_other chans j i hne]; exact h, hc⟩

/-- A closed entry stays closed through the whole close loop. -/
theorem foldl_closeIdx_closed :
    ∀ (subs : List Nat) (chans : List BusChan) (i : Nat) (c : BusChan),
    chans.get? i = some c → c.closed = true →
    ∃ c', (subs.foldl closeIdx chans).get? i = some c' ∧ c'.closed = true := by
  intro subs
  induction subs with
  | nil => exact fun chans i c h hc => ⟨c, h, hc⟩
  | cons j rest ih =>
    intro chans i c h hc
    obtain ⟨c', h', hc'⟩ := closeIdx_closed_pres chans j i c h hc
    exact ih (closeIdx chans j) i c' h' hc'

/-- Every subscribed index comes out of the close loop closed. -/
theorem foldl_closeIdx_mem :
    ∀ (subs : List Nat) (chans : List BusChan) (i : Nat) (c : BusChan),
    i ∈ subs → chans.get? i = some c →
    ∃ c', (subs.foldl closeIdx chans).get? i = some c' ∧ c'.closed = true := by
  intro subs
  induction subs with
  | nil => exact fun chans i c h _ => absurd h (List.not_mem_nil i)
  | cons j rest ih =>
    intro chans i c hmem h
    rcases eq_or_ne j i with rfl | hne
    · exact foldl_closeIdx_closed rest (closeIdx chans j) j _ (closeIdx_self chans j c h) rfl
    · rcases List.mem_cons.mp hmem with rfl | hr
      · exact absurd rfl hne
      · exact ih (closeIdx chans j) i c hr ((closeIdx_other chans j i hne).trans h)

/-- C10: `Publish` after `Close` (with no intervening `Subscribe`)
never panics and delivers the event to no subscriber: `Close` closes
every subscriber channel and resets the subscriber list to empty, so
the subsequent publish iterates over no channels and returns the bus
unchanged. -/
theorem c10_publish_after_close (b : Bus) (e : Event) :
    publishBus (closeBus b) e = .ok (closeBus b) ∧
    (closeBus b).subs = [] ∧
    (∀ i ∈ b.subs, ∀ c, b.chans.get? i = some c →
      ∃ c', (closeBus b).chans.get? i = some c' ∧ c'.closed = true) := by
  refine ⟨rfl, rfl, ?_⟩
  intro i hi c hc
  exact foldl_closeIdx_mem b.subs b.chans i c hi hc

/-- C10 witness: close a one-subscriber bus, then publish; the bus is
unchanged, the subscriber list is empty, and the subscriber's channel
is closed. -/
theorem c10_publish_after_close_witness :
    publishBus (closeBus (subscribeBus newBus).1) (Event.sessionDeleted "x") =
      .ok (closeBus (subscribeBus newBus).1) ∧
    (closeBus (subscribeBus newBus).1).subs = [] ∧
    0 ∈ (subscribeBus newBus).1.subs ∧
    (subscribeBus newBus).1.chans.get? 0 = some { closed := false, buf := [] } ∧
    (∃ c', (closeBus (subscribeBus newBus).1).chans.get? 0 = some c' ∧
      c'.closed = true) := by
  have h := c10_publish_after_close (subscribeBus newBus).1 (Event.sessionDeleted "x")
  exact ⟨h.1, h.2.1, by decide, rfl, h.2.2 0 (by decide) _ rfl⟩

/-- Searching for a one-character pattern is membership. -/
theorem hasSubList_mem (s : List Char) (c : Char) :
    hasSubList s [c] = true ↔ c ∈ s := by
  induction s with
  | nil => simp [hasSubList]
  | cons a t ih =>
    simp [hasSubList, List.isPrefixOf, ih]

/-- Containment of a one-character string is membership of that
character. -/
theorem containsStr_eq_mem (name pat : String) (c : Char) (hp : pat.data = [c]) :
    containsStr name pat = true ↔ c ∈ name.data := by
  rw [containsStr, hp, hasSubList_mem]

/-- Characterization of `isValidGitRefName`. -/
theorem isValidGitRefName_iff (name : String) :
    isValidGitRefName name = true ↔
      (goHasSuf name ".lock" = false ∧
       (∀ c ∈ name.data, ¬(c.toNat < 32 ∨ c.toNat = 127 ∨ isCf c = true)) ∧
       (∃ c ∈ name.data, isRefWordChar c = true)) := by
  unfold isValidGitRefName
  cases hs : goHasSuf name ".lock" with
  | true => simp [hs]
  | false =>
    cases ha : name.data.any (fun r => r.toNat < 32 || r.toNat == 127 || isCf r) with
    | true =>
      have hexv : ∃ c ∈ name.data, c.toNat < 32 ∨ c.toNat = 127 ∨ isCf c = true := by
        obtain ⟨c, hc, hcv⟩ := List.any_eq_true.mp ha
        exact ⟨c, hc, by simpa [or_assoc] using hcv⟩
      rw [if_neg (by simp [hs]), if_pos (by simp [ha])]
      refine iff_of_false (by simp) ?_
      rintro ⟨-, h2, -⟩
      obtain ⟨c, hc, hcv⟩ := hexv
      exact h2 c hc hcv
    | false =>
      have hall : ∀ c ∈ name.data, ¬(c.toNat < 32 ∨ c.toNat = 127 ∨ isCf c = true) := by
        intro c hc
        have h := List.any_eq_false.mp ha c hc
        simpa [or_assoc] using h
      rw [if_neg (by simp [hs]), if_neg (by simp [ha]), List.any_eq_true]
      constructor
      · intro h
        exact ⟨rfl, hall, h⟩
      · rintro ⟨-, -, h⟩
        exact h

/-- `validateSessionName` succeeds exactly when every check passes. -/
theorem validate_ok_iff (name : String) :
    validateSessionName name = .ok () ↔
      (¬ name = "" ∧ ¬ goLen name > 50 ∧
       invalidNameChars.find? (fun c => containsStr name c) = none ∧
       invalidStartEndChars.find? (fun c => goHasPre name c || goHasSuf name c) = none ∧
       isNumericOnly name = false ∧
       reservedNames.find? (fun r => goEqualFold name r) = none ∧
       isValidGitRefName name = true) := by
  unfold validateSessionName
  by_cases h1 : name = ""
  · simp [h1]
  · by_cases h2 : goLen name > 50
    · simp [h1, h2]
    · cases h3 : invalidNameChars.find? (fun c => containsStr name c) with
      | some c => simp [h1, h2, h3]
      | none =>
        cases h4 : invalidStartEndChars.find?
            (fun c => goHasPre name c || goHasSuf name c) with
        | some c => simp [h1, h2, h3, h4]
        | none =>
          cases h5 : isNumericOnly name with
          | true => simp [h1, h2, h3, h4, h5]
          | false =>
            cases h6 : reservedNames.find? (fun r => goEqualFold name r) with
            | some r => simp [h1, h2, h3, h4, h5, h6]
            | none =>
              cases h7 : isValidGitRefName name with
              | false => simp [h1, h2, h3, h4, h5, h6, h7]
              | true => simp [h1, h2, h3, h4, h5, h6, h7]

/-- Absence of a one-character pattern is non-membership. -/
theorem containsStr_false_iff (name pat : String) (c : Char) (hp : pat.data = [c]) :
    (containsStr name pat = false) ↔ c ∉ name.data := by
  rw [← containsStr_eq_mem name pat c hp]
  cases containsStr name pat <;> simp

/-- Pointwise exclusion of the eight forbidden characters is the
conjunction of their non-memberships. -/
theorem forall_notmem_char_lits (name : String) :
    (∀ x ∈ name.data, ¬x = ' ' ∧ ¬x = '~' ∧ ¬x = '^' ∧ ¬x = ':' ∧ ¬x = '?' ∧
      ¬x = '*' ∧ ¬x = '[' ∧ ¬x = '\\') ↔
    (' ' ∉ name.data ∧ '~' ∉ name.data ∧ '^' ∉ name.data ∧ ':' ∉ name.data ∧
     '?' ∉ name.data ∧ '*' ∉ name.data ∧ '[' ∉ name.data ∧ '\\' ∉ name.data) := by
  constructor
  · intro h
    exact ⟨fun hm => (h _ hm).1 rfl, fun hm => (h _ hm).2.1 rfl,
      fun hm => (h _ hm).2.2.1 rfl, fun hm => (h _ hm).2.2.2.1 rfl,
      fun hm => (h _ hm).2.2.2.2.1 rfl, fun hm => (h _ hm).2.2.2.2.2.1 rfl,
      fun hm => (h _ hm).2.2.2.2.2.2.1 rfl, fun hm => (h _ hm).2.2.2.2.2.2.2 rfl⟩
  · rintro ⟨h1, h2, h3, h4, h5, h6, h7, h8⟩ x hx
    exact ⟨fun e => h1 (e ▸ hx), fun e => h2 (e ▸ hx), fun e => h3 (e ▸ hx),
      fun e => h4 (e ▸ hx), fun e => h5 (e ▸ hx), fun e => h6 (e ▸ hx),
      fun e => h7 (e ▸ hx), fun e => h8 (e ▸ hx)⟩

/-- Failure of "every character is outside the word class" is the
existence of a word-class character. -/
theorem not_forall_refchar (name : String) :
    (¬ ∀ x ∈ name.data, isRefWordChar x = false) ↔
    (∃ c ∈ name.data, isRefWordChar c = true) := by
  constructor
  · intro h
    by_contra hne
    apply h
    intro x hx
    cases hv : isRefWordChar x with
    | false => rfl
    | true => exact absurd ⟨x, hx, hv⟩ hne
  · rintro ⟨c, hc, hv⟩ hall
    rw [hall c hc] at hv
    exact Bool.noConfusion hv

/-- C3 (amended): `validateSessionName` rejects exactly the strings
in the documented forbidden set, with over-length measured in UTF-8
bytes (Go `len`), "purely numeric" meaning accepted by `strconv.Atoi`
(an optionally signed decimal within the signed 64-bit range), and
reserved-word matching using Unicode simple case folding
(`strings.EqualFold`); it accepts every string outside that set,
accented letters and emoji included. -/
theorem c3_validate_session_name (name : String) :
    validateSessionName name = .ok () ↔ ¬ forbiddenNameAmended name := by
  rw [validate_ok_iff, isValidGitRefName_iff]
  simp only [forbiddenNameAmended, invalidNameChars, invalidStartEndChars, reservedNames,
    List.find?_eq_none, List.mem_cons, List.not_mem_nil,
    forall_eq_or_imp, forall_eq, or_false, false_or,
    Bool.or_eq_true, not_or, not_exists, not_and, not_not, ne_eq,
    Bool.not_eq_true, not_lt]
  rw [forall_notmem_char_lits, not_forall_refchar,
    containsStr_false_iff name " " ' ' rfl, containsStr_false_iff name "~" '~' rfl,
    containsStr_false_iff name "^" '^' rfl, containsStr_false_iff name ":" ':' rfl,
    containsStr_false_iff name "?" '?' rfl, containsStr_false_iff name "*" '*' rfl,
    containsStr_false_iff name "[" '[' rfl, containsStr_false_iff name "\\" '\\' rfl]
  constructor
  · rintro ⟨hA, hB, ⟨c1, c2, c3, c4, c5, c6, c7, c8, c9, c10⟩, hD, hE, hF, hG, hH, hI⟩
    exact ⟨hA, hB, ⟨c1, c2, c3, c4, c5, c6, c7, c8⟩, c9, c10, hD, hE, hF, hG, hH, hI⟩
  · rintro ⟨hA, hB, ⟨c1, c2, c3, c4, c5, c6, c7, c8⟩, c9, c10, hD, hE, hF, hG, hH, hI⟩
    exact ⟨hA, hB, ⟨c1, c2, c3, c4, c5, c6, c7, c8, c9, c10⟩, hD, hE, hF, hG, hH, hI⟩

/-- C3 counterexample: the pure 20-digit string exceeds the 64-bit
signed range, so `strconv.Atoi` fails (`ErrRange`) and
`validateSessionName` accepts it, although it lies in the claim's
forbidden set as a purely numeric name. -/
theorem c3_counterexample :
    validateSessionName "12345678901234567890" = .ok () ∧
    forbiddenNameClaim "12345678901234567890" := by
  constructor
  · rfl
  · unfold forbiddenNameClaim
    right; right; right; right; right; right; left
    exact ⟨by decide, by decide⟩

end Cwt
